import Mathlib

/-!
Verification of the `WordEmbeddingVisualization` engine
(`src/rag-visualization/custom_commands.md`, embedded JavaScript file
`embedding-engine.js`).

Shallow embedding conventions:
* JavaScript numbers are modelled by `JSNum`: an exact rational payload plus
  the IEEE special values `+Infinity`, `-Infinity` and `NaN`.  Rational
  arithmetic idealizes double rounding (the spec's "within floating-point
  tolerance"); the special-value propagation rules follow ECMAScript
  (`x / 0 = Infinity` for `x > 0`, `0 * Infinity = NaN`, `Math.min/max`
  propagate `NaN`, ...).  Zero is treated as `+0`; negative zero is not
  distinguished, which is irrelevant to the code under study.
* Strings are `List Char`; `String.prototype.includes` and
  `String.prototype.toLowerCase` are embedded as executable functions.
* JavaScript objects used as string-keyed records (`line.userData`) are
  association lists, so that reading an absent property yields `none`
  (JavaScript `undefined`) exactly as in the source.
* Three.js material state is carried explicitly (`opacity`, emissive
  intensity, scale, color).  A line color of the form
  `new THREE.Color(0x25D366).multiplyScalar(k)` is recorded by the scalar
  `k`; sprite/label colors are recorded as their hex value.
-/

namespace Vis

/-- A JavaScript (IEEE-754 double) number, idealized: exact rationals plus the
special values.  Only the operations the engine uses are provided. -/
inductive JSNum where
  | fin : ℚ → JSNum
  | posInf : JSNum
  | negInf : JSNum
  | nan : JSNum
deriving DecidableEq

namespace JSNum

/-- Whether the number is finite (neither an infinity nor NaN). -/
def isFin : JSNum → Bool
  | fin _ => true
  | _ => false

/-- Rational payload of a finite value (0 for the special values). -/
def toQ : JSNum → ℚ
  | fin q => q
  | _ => 0

/-- `Math.min`: NaN-propagating minimum. -/
def jmin : JSNum → JSNum → JSNum
  | nan, _ => nan
  | _, nan => nan
  | negInf, _ => negInf
  | _, negInf => negInf
  | posInf, b => b
  | a, posInf => a
  | fin a, fin b => fin (min a b)

/-- `Math.max`: NaN-propagating maximum. -/
def jmax : JSNum → JSNum → JSNum
  | nan, _ => nan
  | _, nan => nan
  | posInf, _ => posInf
  | _, posInf => posInf
  | negInf, b => b
  | a, negInf => a
  | fin a, fin b => fin (max a b)

/-- IEEE addition. -/
def jadd : JSNum → JSNum → JSNum
  | nan, _ => nan
  | _, nan => nan
  | posInf, negInf => nan
  | negInf, posInf => nan
  | posInf, _ => posInf
  | _, posInf => posInf
  | negInf, _ => negInf
  | _, negInf => negInf
  | fin a, fin b => fin (a + b)

/-- IEEE subtraction. -/
def jsub : JSNum → JSNum → JSNum
  | nan, _ => nan
  | _, nan => nan
  | posInf, posInf => nan
  | negInf, negInf => nan
  | posInf, _ => posInf
  | negInf, _ => negInf
  | fin _, posInf => negInf
  | fin _, negInf => posInf
  | fin a, fin b => fin (a - b)

/-- IEEE multiplication (`0 * Infinity = NaN`). -/
def jmul : JSNum → JSNum → JSNum
  | nan, _ => nan
  | _, nan => nan
  | posInf, posInf => posInf
  | posInf, negInf => negInf
  | negInf, posInf => negInf
  | negInf, negInf => posInf
  | posInf, fin b => if 0 < b then posInf else if b < 0 then negInf else nan
  | fin a, posInf => if 0 < a then posInf else if a < 0 then negInf else nan
  | negInf, fin b => if 0 < b then negInf else if b < 0 then posInf else nan
  | fin a, negInf => if 0 < a then negInf else if a < 0 then posInf else nan
  | fin a, fin b => fin (a * b)

/-- IEEE division (`a / 0 = ±Infinity` for `a ≠ 0`, `0 / 0 = NaN`; the
divisor zero is treated as `+0`, which is the case arising in the engine). -/
def jdiv : JSNum → JSNum → JSNum
  | nan, _ => nan
  | _, nan => nan
  | posInf, posInf => nan
  | posInf, negInf => nan
  | negInf, posInf => nan
  | negInf, negInf => nan
  | posInf, fin b => if b < 0 then negInf else posInf
  | negInf, fin b => if b < 0 then posInf else negInf
  | fin _, posInf => fin 0
  | fin _, negInf => fin 0
  | fin a, fin b => if b = 0 then (if 0 < a then posInf else if a < 0 then negInf else nan) else fin (a / b)

end JSNum

open JSNum

/-- A three.js `Vector3` / plain `{x,y,z}` position. -/
structure Vec3 where
  x : JSNum
  y : JSNum
  z : JSNum
deriving DecidableEq

/-- A JavaScript string. -/
abbrev Word := List Char

/-- `String.prototype.toLowerCase`, character-wise. -/
def toLowerW (w : Word) : Word := w.map Char.toLower

/-- One entry of the loaded dataset `data.words`: identifier, raw 3D
position, category tags, and the similarity list `similar_words`
(`[name, score]` pairs, scores kept as exact rationals). -/
structure WordObj where
  word : Word
  position : Vec3
  categories : List Word
  similar_words : List (Word × ℚ)
deriving DecidableEq

/-- The running minimum of the `x` coordinates, exactly as `normalizeData`
computes it: `minX` starts at `Infinity` and each node applies `Math.min`. -/
def bboxMinX (ws : List WordObj) : JSNum :=
  ws.foldl (fun acc w => jmin acc w.position.x) JSNum.posInf

/-- Running minimum of `y` (initial value `Infinity`). -/
def bboxMinY (ws : List WordObj) : JSNum :=
  ws.foldl (fun acc w => jmin acc w.position.y) JSNum.posInf

/-- Running minimum of `z` (initial value `Infinity`). -/
def bboxMinZ (ws : List WordObj) : JSNum :=
  ws.foldl (fun acc w => jmin acc w.position.z) JSNum.posInf

/-- Running maximum of `x` (initial value `-Infinity`). -/
def bboxMaxX (ws : List WordObj) : JSNum :=
  ws.foldl (fun acc w => jmax acc w.position.x) JSNum.negInf

/-- Running maximum of `y` (initial value `-Infinity`). -/
def bboxMaxY (ws : List WordObj) : JSNum :=
  ws.foldl (fun acc w => jmax acc w.position.y) JSNum.negInf

/-- Running maximum of `z` (initial value `-Infinity`). -/
def bboxMaxZ (ws : List WordObj) : JSNum :=
  ws.foldl (fun acc w => jmax acc w.position.z) JSNum.negInf

/-- `Math.max(maxX-minX, maxY-minY, maxZ-minZ)` from `normalizeData`
(the variadic `Math.max` folded as nested binary maxima, which agrees with
ECMAScript on these arguments). -/
def spanMax3 (ws : List WordObj) : JSNum :=
  jmax (jsub (bboxMaxX ws) (bboxMinX ws))
    (jmax (jsub (bboxMaxY ws) (bboxMinY ws)) (jsub (bboxMaxZ ws) (bboxMinZ ws)))

/-- `normalizeData(words)`: compute the axis-aligned bounding box of all raw
positions, `center = (min+max)/2` per axis, `scale = 500 / (largest axis
range)`, and replace each position by `(position - center) * scale`.
The source mutates `words` in place inside one `forEach`; the embedding
returns the updated list (the six running min/max folds over one pass agree
with six separate folds since each accumulator is independent). -/
def normalizeData (ws : List WordObj) : List WordObj :=
  let cx := jdiv (jadd (bboxMinX ws) (bboxMaxX ws)) (JSNum.fin 2)
  let cy := jdiv (jadd (bboxMinY ws) (bboxMaxY ws)) (JSNum.fin 2)
  let cz := jdiv (jadd (bboxMinZ ws) (bboxMaxZ ws)) (JSNum.fin 2)
  let scale := jdiv (JSNum.fin 500) (spanMax3 ws)
  ws.map (fun w =>
    { w with position :=
        ⟨jmul (jsub w.position.x cx) scale,
         jmul (jsub w.position.y cy) scale,
         jmul (jsub w.position.z cz) scale⟩ })

/-- First Scenario-B node, at the raw corner `(-100,-100,-100)`. -/
def dw0 : WordObj :=
  { word := "p1".toList, position := ⟨JSNum.fin (-100), JSNum.fin (-100), JSNum.fin (-100)⟩,
    categories := [], similar_words := [] }

/-- Second Scenario-B node, at the raw corner `(100,100,100)`. -/
def dw1 : WordObj :=
  { word := "p2".toList, position := ⟨JSNum.fin 100, JSNum.fin 100, JSNum.fin 100⟩,
    categories := [], similar_words := [] }

/-- Third Scenario-B node, at the raw point `(100,0,0)`. -/
def dw2 : WordObj :=
  { word := "p3".toList, position := ⟨JSNum.fin 100, JSNum.fin 0, JSNum.fin 0⟩,
    categories := [], similar_words := [] }

/-- Scenario-B dataset: raw bounding box `[-100,100]` on every axis,
including the raw point `(100,0,0)`. -/
def demoWords : List WordObj := [dw0, dw1, dw2]

/-- Degenerate dataset: every node at the same raw position `(1,2,3)`. -/
def degWords : List WordObj :=
  [{ word := "d1".toList, position := ⟨JSNum.fin 1, JSNum.fin 2, JSNum.fin 3⟩,
     categories := [], similar_words := [] },
   { word := "d2".toList, position := ⟨JSNum.fin 1, JSNum.fin 2, JSNum.fin 3⟩,
     categories := [], similar_words := [] }]

/-! ### Scene state

The renderable state the interaction methods mutate: sphere meshes
(`wordNodes` with their `MeshStandardMaterial`), label sprites
(`wordLabels` with their `SpriteMaterial`), and connection lines
(`connections` with their `LineBasicMaterial`). -/

/-- Reading a property of a string-keyed JavaScript object
(`obj[k]`, `undefined` when absent is `none`). -/
def getProp (ud : List (String × Word)) (k : String) : Option Word :=
  (ud.find? (fun p => p.1 == k)).map (fun p => p.2)

/-- `Set.prototype.has` applied to a possibly-`undefined` argument.  The
engine's `highlightedWords` set only ever receives strings
(`add(w.word)` and `add(s[0])`), so `has(undefined)` is `false`. -/
def hasOpt (s : List Word) (o : Option Word) : Bool :=
  match o with
  | none => false
  | some w => s.contains w

/-- State of one word sphere: `userData.word` plus the material properties
the engine mutates.  Creation values (`createWordNodes`): emissive intensity
`0` ("Strictly NO glow"), material opacity `1` (three.js default, the
material sets no `opacity`), scale `1`. -/
structure NodeState where
  word : Word
  emissiveIntensity : ℚ
  opacity : ℚ
  scale : ℚ
deriving DecidableEq

/-- State of one label sprite.  `createWordLabels` sets no `userData`
(the sprite keeps three.js's default empty object) and no material color
(default white `0xffffff`; the green text is baked into the canvas
texture); `visible` defaults to `true`, material opacity to `1`,
scale to `(15, 7.5)`. -/
structure LabelState where
  userData : List (String × Word)
  visible : Bool
  colorHex : Nat
  opacity : ℚ
  scaleX : ℚ
  scaleY : ℚ
deriving DecidableEq

/-- State of one connection line.  `colorMult` is the scalar `k` of
`new THREE.Color(0x25D366).multiplyScalar(k)` (creation value `15`);
creation opacity is `0.8`, line width the three.js default `1`.
`userData` is set at creation to `{ source, target }`. -/
structure ConnState where
  userData : List (String × Word)
  colorMult : ℚ
  opacity : ℚ
  linewidth : ℚ
deriving DecidableEq

/-- The engine fields the claims concern: the loaded dataset, the three
renderable collections, the highlight set, the current query and the
hovered node (as an index into `wordNodes`, standing for the object
reference `this.hoveredNode`). -/
structure VisState where
  wordData : List WordObj
  nodes : List NodeState
  labels : List LabelState
  conns : List ConnState
  highlightedWords : List Word
  searchQuery : Word
  hoveredNode : Option Nat
deriving DecidableEq

/-- `createWordNodes`: one sphere per dataset entry, emissive intensity 0,
default material opacity 1, scale 1. -/
def createWordNodes (wordData : List WordObj) : List NodeState :=
  wordData.map (fun w =>
    { word := w.word, emissiveIntensity := 0, opacity := 1, scale := 1 })

/-- `createWordLabels`: one sprite per dataset entry, scale `(15, 7.5)`,
no `userData`, default white material color and opacity 1. -/
def createWordLabels (wordData : List WordObj) : List LabelState :=
  wordData.map (fun _ =>
    { userData := [], visible := true, colorHex := 0xffffff, opacity := 1,
      scaleX := 15, scaleY := 7.5 })

/-- The inner `forEach` body of `createSemanticConnections` for one dataset
entry: walk the first two similarity entries
(`similar.slice(0, 2)`); skip an entry whose score is
below the threshold (`if (score < this.similarityThreshold) return`); skip
an entry whose named neighbor is not in the dataset
(`const target = this.wordData.find(...); if (!target) return`); otherwise
push one line with `userData = { source: wordObj.word, target: name }`,
color `0x25D366` scaled by 15, opacity 0.8.  (The line geometry and the
signal spawned per line carry no state the claims concern.) -/
def connsOf (thr : ℚ) (wordData : List WordObj) (wordObj : WordObj) : List ConnState :=
  (wordObj.similar_words.take 2).filterMap (fun e =>
    if e.2 < thr then none
    else
      match wordData.find? (fun t => t.word == e.1) with
      | none => none
      | some _ => some
          { userData := [("source", wordObj.word), ("target", e.1)],
            colorMult := 15, opacity := 0.8, linewidth := 1 })

/-- The outer `forEach` of `createSemanticConnections`: every node's
surviving similarity entries, concatenated in dataset order. -/
def createSemanticConnections (thr : ℚ) (wordData : List WordObj) : List ConnState :=
  wordData.flatMap (connsOf thr wordData)

/-- `this.similarityThreshold`, set in the constructor. -/
def similarityThreshold : ℚ := 0.55

/-- The `source` endpoint of a line (`line.userData.source`). -/
def connSource (c : ConnState) : Option Word := getProp c.userData "source"

/-- The `target` endpoint of a line (`line.userData.target`). -/
def connTarget (c : ConnState) : Option Word := getProp c.userData "target"

/-- The scene as `loadWordEmbeddings` builds it after a successful load:
`createWordNodes`, `createWordLabels`, `createSemanticConnections` over the
(already normalized) dataset, with empty highlight set and no hover. -/
def initScene (thr : ℚ) (wordData : List WordObj) : VisState :=
  { wordData := wordData,
    nodes := createWordNodes wordData,
    labels := createWordLabels wordData,
    conns := createSemanticConnections thr wordData,
    highlightedWords := [],
    searchQuery := [],
    hoveredNode := none }

/-! ### Search -/

/-- `q` is a prefix of `s`, character by character (the inner loop of
`String.prototype.includes`). -/
def hasPre : Word → Word → Bool
  | _, [] => true
  | [], _ :: _ => false
  | c :: s, d :: q => c == d && hasPre s q

/-- `s.includes(q)`: `q` occurs contiguously somewhere in `s`. -/
def hasSub : Word → Word → Bool
  | [], q => hasPre [] q
  | c :: t, q => hasPre (c :: t) q || hasSub t q

/-- The per-node match test of `performSearch`:
`w.word.toLowerCase().includes(query) ||
 w.categories.some(c => c.toLowerCase().includes(query))`
(`query` is already lowercased by the caller). -/
def directMatch (query : Word) (w : WordObj) : Bool :=
  hasSub (toLowerW w.word) query
    || w.categories.any (fun c => hasSub (toLowerW c) query)

/-- The `forEach` of `performSearch` that fills `highlightedWords`: for each
matching node, add its word and the first component of every entry of its
similarity list.  The JavaScript `Set` is modelled as a list with
membership semantics. -/
def computeHighlighted (wordData : List WordObj) (query : Word) : List Word :=
  wordData.foldl (fun acc w =>
    if directMatch query w then
      (acc ++ [w.word]) ++ w.similar_words.map (fun s => s.1)
    else acc) []

/-- `applyHighlighting`: nodes are restyled by membership of their
`userData.word` in `highlightedWords`; a label is visible iff
`highlightedWords.has(label.userData.word)` (labels have no `userData`, so
this reads `undefined`); a line is bright iff
`highlightedWords.has(line.userData.from) && highlightedWords.has(line.userData.to)`
(the line `userData` stores `source`/`target`, not `from`/`to`, so both
reads are `undefined`). -/
def applyHighlighting (st : VisState) : VisState :=
  { st with
    nodes := st.nodes.map (fun node =>
      let mtch := st.highlightedWords.contains node.word
      { node with
        emissiveIntensity := if mtch then 1.5 else 0.15,
        opacity := if mtch then 0.8 else 0.05,
        scale := if mtch then 3.0 else 0.7 }),
    labels := st.labels.map (fun label =>
      { label with visible := hasOpt st.highlightedWords (getProp label.userData "word") }),
    conns := st.conns.map (fun line =>
      let mtch := hasOpt st.highlightedWords (getProp line.userData "from")
        && hasOpt st.highlightedWords (getProp line.userData "to")
      { line with
        opacity := if mtch then 1.0 else 0.02,
        linewidth := if mtch then 3 else 1 }) }

/-- `resetHighlighting`: every node to emissive intensity 1.5, opacity 0.9,
scale 1; every label visible; every line to opacity 0.4. -/
def resetHighlighting (st : VisState) : VisState :=
  { st with
    nodes := st.nodes.map (fun node =>
      { node with emissiveIntensity := 1.5, opacity := 0.9, scale := 1 }),
    labels := st.labels.map (fun label => { label with visible := true }),
    conns := st.conns.map (fun line => { line with opacity := 0.4 }) }

/-- `performSearch`: clear `highlightedWords`; lowercase the stored query;
an empty query resets the highlighting, otherwise the match set is computed
over `wordData` and applied. -/
def performSearch (st : VisState) : VisState :=
  let st := { st with highlightedWords := [] }
  let query := toLowerW st.searchQuery
  if query = [] then resetHighlighting st
  else applyHighlighting { st with highlightedWords := computeHighlighted st.wordData query }

/-- JavaScript whitespace test for `String.prototype.trim` (restricted to
the ASCII whitespace occurring in practice). -/
def isWs (c : Char) : Bool :=
  c == ' ' || c == '\t' || c == '\n' || c == '\r'

/-- `String.prototype.trim`. -/
def jsTrim (w : Word) : Word :=
  ((w.dropWhile isWs).reverse.dropWhile isWs).reverse

/-- The `search-box` input listener:
`this.searchQuery = e.target.value.toLowerCase().trim(); this.performSearch();`. -/
def setQuery (q : Word) (st : VisState) : VisState :=
  performSearch { st with searchQuery := jsTrim (toLowerW q) }

/-! ### Hover -/

/-- Update the element at one index, leaving the rest unchanged (the effect
of mutating `this.wordNodes[i]` / `this.wordLabels[i]`). -/
def modifyAt {α : Type} : Nat → (α → α) → List α → List α
  | _, _, [] => []
  | 0, f, a :: as => f a :: as
  | n+1, f, a :: as => a :: modifyAt n f as

/-- Does the line touch the word, i.e.
`line.userData.source === targetWord || line.userData.target === targetWord`? -/
def touches (targetWord : Word) (line : ConnState) : Bool :=
  connSource line == some targetWord || connTarget line == some targetWord

/-- `triggerNeuralActivity(targetNode)` with
`targetWord = this.wordData[indexOf(targetNode)].word`: every line touching
the word gets the "overload" color (`0x25D366` × 50) at opacity 1.0 and one
spark is spawned along it (`this.spawnSignal(line)`), every other line is
set to the dim color (`0x25D366` × 5) at opacity 0.2.  The result pairs the
updated lines with the list of lines a spark was spawned for, in traversal
order. -/
def triggerNeuralActivity (targetWord : Word) (conns : List ConnState) :
    List ConnState × List ConnState :=
  (conns.map (fun line =>
      if touches targetWord line then
        { line with colorMult := 50, opacity := 1.0 }
      else
        { line with colorMult := 5, opacity := 0.2 }),
   conns.filter (fun line => touches targetWord line))

/-- `resetNodeState(node)` for the node at `index`: node back to scale 1 and
emissive 0; its label back to scale `(15, 7.5)`, matte green `0x25D366`,
opacity 0.7; every connection back to color `0x25D366` (scalar 1) and
opacity 0.4 — unconditionally, with no regard to `searchQuery` or
`highlightedWords`. -/
def resetNodeState (index : Nat) (st : VisState) : VisState :=
  { st with
    nodes := modifyAt index (fun node => { node with scale := 1.0, emissiveIntensity := 0 }) st.nodes,
    labels := modifyAt index (fun label =>
      { label with scaleX := 15, scaleY := 7.5, colorHex := 0x25D366, opacity := 0.7 }) st.labels,
    conns := st.conns.map (fun line => { line with colorMult := 1, opacity := 0.4 }) }

/-- `this.wordData[i].word` (the engine only evaluates this at indices of
existing nodes; out of range yields the empty string). -/
def wordDataWordAt (st : VisState) (i : Nat) : Word :=
  match st.wordData.get? i with
  | some w => w.word
  | none => []

/-- `handleHover`, parameterized by the outcome of the per-frame raycast:
`hit = some i` when the nearest intersected node renderable is index `i`
(`intersects[0]`), `none` when the ray hits no node.  A new candidate first
resets the previously hovered node, then applies the hover visuals (node
scale 2, emissive 0; label scale `(75, 37.5)`, white, opacity 1) and calls
`triggerNeuralActivity`; losing the hit resets the hovered node and clears
`hoveredNode`. -/
def handleHover (hit : Option Nat) (st : VisState) : VisState :=
  match hit with
  | some i =>
      if st.hoveredNode == some i then st
      else
        let st1 := match st.hoveredNode with
          | some j => resetNodeState j st
          | none => st
        let st2 := { st1 with
          hoveredNode := some i,
          nodes := modifyAt i (fun node =>
            { node with scale := 2.0, emissiveIntensity := 0 }) st1.nodes,
          labels := modifyAt i (fun label =>
            { label with scaleX := 75, scaleY := 37.5, colorHex := 0xffffff, opacity := 1.0 }) st1.labels }
        { st2 with conns := (triggerNeuralActivity (wordDataWordAt st2 i) st2.conns).1 }
  | none =>
      match st.hoveredNode with
      | some j => { resetNodeState j st with hoveredNode := none }
      | none => st

/-! ### Animation loop (the connection-opacity step) -/

/-- The "Neural Pulse" step of `animate()`, parameterized by
`s = Math.sin(time * 2) ∈ [-1, 1]`: `pulseIntensity = 0.5 + s * 0.3`, and
every line whose current opacity is `< 1.0` ("only pulse if not currently
overloaded by hover") is set to `0.3 + pulseIntensity * 0.4`. -/
def animateConns (s : ℚ) (conns : List ConnState) : List ConnState :=
  let pulseIntensity := 0.5 + s * 0.3
  conns.map (fun line =>
    if line.opacity < 1.0 then { line with opacity := 0.3 + pulseIntensity * 0.4 }
    else line)

/-! ### Loader -/

/-- Observable outcome of `loadWordEmbeddings`. -/
structure LoadOutcome where
  /-- whether `document.getElementById('loading').style.display = 'none'` ran -/
  loadingHidden : Bool
  /-- whether the `catch` block ran `console.error(e)` -/
  consoleErrorLogged : Bool
  /-- whether any error escaped `loadWordEmbeddings` to its caller -/
  errorSurfaced : Bool
  /-- the scene built on success -/
  state : Option VisState
deriving DecidableEq

/-- `loadWordEmbeddings()`: `fetched = some data` models a successful fetch
and parse of `embedding-data.json` (`data.words`); `fetched = none` models a
transport failure or malformed document (the `await` or `.json()` throwing).
The whole body is wrapped in `try { ... } catch (e) { console.error(e); }`:
on failure the error is logged and swallowed, the loading element is left
as it was, and nothing is rethrown.  On success the data is normalized,
the scene is built, and the loading element is hidden. -/
def loadWordEmbeddings (thr : ℚ) (fetched : Option (List WordObj)) : LoadOutcome :=
  match fetched with
  | some data =>
      { loadingHidden := true, consoleErrorLogged := false, errorSurfaced := false,
        state := some (initScene thr (normalizeData data)) }
  | none =>
      { loadingHidden := false, consoleErrorLogged := true, errorSurfaced := false,
        state := none }

/-! ## Helper lemmas -/

theorem getProp_source (a b : Word) : getProp [("source", a), ("target", b)] "source" = some a := rfl

theorem getProp_target (a b : Word) : getProp [("source", a), ("target", b)] "target" = some b := rfl

theorem getProp_from_eq (a b : Word) : getProp [("source", a), ("target", b)] "from" = none := rfl

theorem getProp_to_eq (a b : Word) : getProp [("source", a), ("target", b)] "to" = none := rfl

theorem connsOf_mem (thr : ℚ) (data : List WordObj) (w : WordObj) (c : ConnState)
    (hc : c ∈ connsOf thr data w) :
    ∃ e ∈ w.similar_words.take 2,
      c = { userData := [("source", w.word), ("target", e.1)],
            colorMult := 15, opacity := 0.8, linewidth := 1 } ∧
      thr ≤ e.2 ∧ ∃ t ∈ data, t.word = e.1 := by
  rcases List.mem_filterMap.mp hc with ⟨e, he, hfe⟩
  by_cases hlt : e.2 < thr
  · simp [hlt] at hfe
  · rcases hfind : data.find? (fun t => t.word == e.1) with _ | t
    · simp [hlt, hfind] at hfe
    · simp only [hlt, if_false, hfind, Option.some.injEq] at hfe
      have ht := List.mem_of_find?_eq_some hfind
      have hteq : t.word = e.1 := by
        have := List.find?_some hfind
        exact beq_iff_eq.mp this
      exact ⟨e, he, hfe.symm, le_of_not_lt hlt, t, ht, hteq⟩

theorem connsOf_source (thr : ℚ) (data : List WordObj) (w : WordObj) (c : ConnState)
    (hc : c ∈ connsOf thr data w) : connSource c = some w.word := by
  rcases connsOf_mem thr data w c hc with ⟨e, _, hce, _, _⟩
  rw [hce, connSource, getProp_source]

theorem length_connsOf_le (thr : ℚ) (data : List WordObj) (w : WordObj) :
    (connsOf thr data w).length ≤ 2 := by
  calc (connsOf thr data w).length ≤ (w.similar_words.take 2).length :=
        List.length_filterMap_le _ _
    _ ≤ 2 := by simp

theorem countP_flatMap {α β : Type} (p : β → Bool) (f : α → List β) (l : List α) :
    (l.flatMap f).countP p = (l.map (fun a => (f a).countP p)).sum := by
  induction l with
  | nil => simp
  | cons a as ih => simp [List.flatMap_cons, List.countP_append, ih]

theorem countP_connsOf_ne (thr : ℚ) (data : List WordObj) (a : WordObj) (x : Word)
    (hne : a.word ≠ x) :
    (connsOf thr data a).countP (fun c => connSource c == some x) = 0 := by
  rw [List.countP_eq_zero]
  intro c hc
  have := connsOf_source thr data a c hc
  simp [this, hne]

theorem outdeg_sum_le (thr : ℚ) (alldata : List WordObj) (data : List WordObj)
    (hnd : (data.map (fun w => w.word)).Nodup) (w : WordObj) (hw : w ∈ data) :
    ((data.map (fun a =>
        (connsOf thr alldata a).countP (fun c => connSource c == some w.word))).sum) ≤ 2 := by
  induction data with
  | nil => simp at hw
  | cons d rest ih =>
      have hnd' : d.word ∉ rest.map (fun w => w.word) ∧
          (rest.map (fun w => w.word)).Nodup := by
        simpa [List.nodup_cons] using hnd
      simp only [List.map_cons, List.sum_cons]
      rcases List.mem_cons.mp hw with hwd | hwr
      · have hz : (rest.map (fun a =>
            (connsOf thr alldata a).countP (fun c => connSource c == some w.word))).sum = 0 := by
          apply List.sum_eq_zero
          intro x hx
          rcases List.mem_map.mp hx with ⟨a, ha, hax⟩
          rw [← hax]
          apply countP_connsOf_ne
          intro hcontra
          rw [hwd] at hcontra
          exact hnd'.1 (hcontra ▸ List.mem_map_of_mem (fun w => w.word) ha)
        rw [hz, Nat.add_zero]
        exact le_trans (List.countP_le_length _) (length_connsOf_le thr alldata d)
      · have hz : (connsOf thr alldata d).countP (fun c => connSource c == some w.word) = 0 := by
          apply countP_connsOf_ne
          intro hcontra
          exact hnd'.1 (hcontra ▸ List.mem_map_of_mem (fun w => w.word) hwr)
        rw [hz, Nat.zero_add]
        exact ih hnd'.2 hwr

theorem length_flatMap_le {α β : Type} (f : α → List β) (l : List α)
    (h : ∀ a ∈ l, (f a).length ≤ 2) : (l.flatMap f).length ≤ 2 * l.length := by
  induction l with
  | nil => simp
  | cons a as ih =>
      rw [List.flatMap_cons, List.length_append, List.length_cons]
      have h1 := h a (List.mem_cons_self a as)
      have h2 := ih (fun x hx => h x (List.mem_cons_of_mem a hx))
      omega

theorem toQ_fin (q : ℚ) : (JSNum.fin q).toQ = q := rfl

theorem fin_toQ {n : JSNum} (h : n.isFin = true) : n = JSNum.fin n.toQ := by
  cases n <;> simp [JSNum.isFin, JSNum.toQ] at h ⊢

theorem jmin_fin (a b : ℚ) : jmin (JSNum.fin a) (JSNum.fin b) = JSNum.fin (min a b) := rfl

theorem jmax_fin (a b : ℚ) : jmax (JSNum.fin a) (JSNum.fin b) = JSNum.fin (max a b) := rfl

theorem jadd_fin (a b : ℚ) : jadd (JSNum.fin a) (JSNum.fin b) = JSNum.fin (a + b) := rfl

theorem jsub_fin (a b : ℚ) : jsub (JSNum.fin a) (JSNum.fin b) = JSNum.fin (a - b) := rfl

theorem jmul_fin (a b : ℚ) : jmul (JSNum.fin a) (JSNum.fin b) = JSNum.fin (a * b) := rfl

theorem jdiv_fin (a b : ℚ) (hb : b ≠ 0) :
    jdiv (JSNum.fin a) (JSNum.fin b) = JSNum.fin (a / b) := by
  simp [jdiv, hb]

theorem jmin_posInf_fin (a : ℚ) : jmin JSNum.posInf (JSNum.fin a) = JSNum.fin a := rfl

theorem jmax_negInf_fin (a : ℚ) : jmax JSNum.negInf (JSNum.fin a) = JSNum.fin a := rfl

theorem foldl_jmin_fin {α : Type} (p : α → JSNum) (l : List α) (q : ℚ)
    (h : ∀ w ∈ l, (p w).isFin = true) :
    l.foldl (fun acc w => jmin acc (p w)) (JSNum.fin q)
      = JSNum.fin (l.foldl (fun acc w => min acc (p w).toQ) q) := by
  induction l generalizing q with
  | nil => rfl
  | cons a as ih =>
      simp only [List.foldl_cons]
      rw [fin_toQ (h a (List.mem_cons_self a as)), jmin_fin]
      exact ih _ (fun w hw => h w (List.mem_cons_of_mem a hw))

theorem foldl_jmax_fin {α : Type} (p : α → JSNum) (l : List α) (q : ℚ)
    (h : ∀ w ∈ l, (p w).isFin = true) :
    l.foldl (fun acc w => jmax acc (p w)) (JSNum.fin q)
      = JSNum.fin (l.foldl (fun acc w => max acc (p w).toQ) q) := by
  induction l generalizing q with
  | nil => rfl
  | cons a as ih =>
      simp only [List.foldl_cons]
      rw [fin_toQ (h a (List.mem_cons_self a as)), jmax_fin]
      exact ih _ (fun w hw => h w (List.mem_cons_of_mem a hw))

theorem foldl_jmin_posInf {α : Type} (p : α → JSNum) (w0 : α) (rest : List α)
    (h : ∀ w ∈ w0 :: rest, (p w).isFin = true) :
    (w0 :: rest).foldl (fun acc w => jmin acc (p w)) JSNum.posInf
      = JSNum.fin (rest.foldl (fun acc w => min acc (p w).toQ) (p w0).toQ) := by
  simp only [List.foldl_cons]
  rw [fin_toQ (h w0 (List.mem_cons_self w0 rest)), jmin_posInf_fin]
  exact foldl_jmin_fin p rest _ (fun w hw => h w (List.mem_cons_of_mem w0 hw))

theorem foldl_jmax_negInf {α : Type} (p : α → JSNum) (w0 : α) (rest : List α)
    (h : ∀ w ∈ w0 :: rest, (p w).isFin = true) :
    (w0 :: rest).foldl (fun acc w => jmax acc (p w)) JSNum.negInf
      = JSNum.fin (rest.foldl (fun acc w => max acc (p w).toQ) (p w0).toQ) := by
  simp only [List.foldl_cons]
  rw [fin_toQ (h w0 (List.mem_cons_self w0 rest)), jmax_negInf_fin]
  exact foldl_jmax_fin p rest _ (fun w hw => h w (List.mem_cons_of_mem w0 hw))

theorem affine_min (a b c s : ℚ) (hs : 0 ≤ s) :
    min ((a - c) * s) ((b - c) * s) = (min a b - c) * s := by
  rcases le_total a b with h | h
  · rw [min_eq_left h, min_eq_left (mul_le_mul_of_nonneg_right (sub_le_sub_right h c) hs)]
  · rw [min_eq_right h, min_eq_right (mul_le_mul_of_nonneg_right (sub_le_sub_right h c) hs)]

theorem affine_max (a b c s : ℚ) (hs : 0 ≤ s) :
    max ((a - c) * s) ((b - c) * s) = (max a b - c) * s := by
  rcases le_total a b with h | h
  · rw [max_eq_right h, max_eq_right (mul_le_mul_of_nonneg_right (sub_le_sub_right h c) hs)]
  · rw [max_eq_left h, max_eq_left (mul_le_mul_of_nonneg_right (sub_le_sub_right h c) hs)]

theorem rmax_mul (a b c : ℚ) (hc : 0 ≤ c) : max a b * c = max (a * c) (b * c) := by
  rcases le_total a b with h | h
  · rw [max_eq_right h, max_eq_right (mul_le_mul_of_nonneg_right h hc)]
  · rw [max_eq_left h, max_eq_left (mul_le_mul_of_nonneg_right h hc)]

theorem foldl_min_affine {α : Type} (p : α → ℚ) (c s : ℚ) (hs : 0 ≤ s) (l : List α) (q : ℚ) :
    l.foldl (fun acc w => min acc ((p w - c) * s)) ((q - c) * s)
      = ((l.foldl (fun acc w => min acc (p w)) q) - c) * s := by
  induction l generalizing q with
  | nil => rfl
  | cons a as ih =>
      simp only [List.foldl_cons]
      rw [affine_min _ _ _ _ hs, ih]

theorem foldl_max_affine {α : Type} (p : α → ℚ) (c s : ℚ) (hs : 0 ≤ s) (l : List α) (q : ℚ) :
    l.foldl (fun acc w => max acc ((p w - c) * s)) ((q - c) * s)
      = ((l.foldl (fun acc w => max acc (p w)) q) - c) * s := by
  induction l generalizing q with
  | nil => rfl
  | cons a as ih =>
      simp only [List.foldl_cons]
      rw [affine_max _ _ _ _ hs, ih]

theorem posx_update (w : WordObj) (v : Vec3) : ({ w with position := v }).position.x = v.x := rfl

theorem posy_update (w : WordObj) (v : Vec3) : ({ w with position := v }).position.y = v.y := rfl

theorem posz_update (w : WordObj) (v : Vec3) : ({ w with position := v }).position.z = v.z := rfl

theorem vec3_mk_x (a b c : JSNum) : (⟨a, b, c⟩ : Vec3).x = a := rfl

theorem vec3_mk_y (a b c : JSNum) : (⟨a, b, c⟩ : Vec3).y = b := rfl

theorem vec3_mk_z (a b c : JSNum) : (⟨a, b, c⟩ : Vec3).z = c := rfl

/-! Rational-level descriptions of the quantities `normalizeData` computes,
for stating claim C2 in the spec's vocabulary (bounding-box minima/maxima,
midpoint center, largest axis range, scale).  These follow the spec's
words; the theorems below connect them to the code's `JSNum` folds. -/

/-- Rational value of a finite `x` coordinate. -/
def toQx (w : WordObj) : ℚ := (w.position.x).toQ

/-- Rational value of a finite `y` coordinate. -/
def toQy (w : WordObj) : ℚ := (w.position.y).toQ

/-- Rational value of a finite `z` coordinate. -/
def toQz (w : WordObj) : ℚ := (w.position.z).toQ

/-- Minimum of `p` over the nonempty list `w0 :: rest`. -/
def qMin (p : WordObj → ℚ) (w0 : WordObj) (rest : List WordObj) : ℚ :=
  rest.foldl (fun acc w => min acc (p w)) (p w0)

/-- Maximum of `p` over the nonempty list `w0 :: rest`. -/
def qMax (p : WordObj → ℚ) (w0 : WordObj) (rest : List WordObj) : ℚ :=
  rest.foldl (fun acc w => max acc (p w)) (p w0)

/-- Bounding-box midpoint, `x` axis. -/
def qCx (w0 : WordObj) (rest : List WordObj) : ℚ :=
  (qMin toQx w0 rest + qMax toQx w0 rest) / 2

/-- Bounding-box midpoint, `y` axis. -/
def qCy (w0 : WordObj) (rest : List WordObj) : ℚ :=
  (qMin toQy w0 rest + qMax toQy w0 rest) / 2

/-- Bounding-box midpoint, `z` axis. -/
def qCz (w0 : WordObj) (rest : List WordObj) : ℚ :=
  (qMin toQz w0 rest + qMax toQz w0 rest) / 2

/-- Largest of the three axis ranges of the bounding box. -/
def qSpan (w0 : WordObj) (rest : List WordObj) : ℚ :=
  max (qMax toQx w0 rest - qMin toQx w0 rest)
    (max (qMax toQy w0 rest - qMin toQy w0 rest) (qMax toQz w0 rest - qMin toQz w0 rest))

/-- `TARGET_EXTENT / span`, the uniform scale factor of the spec. -/
def qScale (w0 : WordObj) (rest : List WordObj) : ℚ := 500 / qSpan w0 rest

/-- Modelled from the spec: "Each node's position becomes
`(position - center) * scale`" with `center` the bounding-box midpoint and
`scale = TARGET_EXTENT / span`.  Claim C2 states that `normalizeData`
refines this map. -/
def normMap (w0 : WordObj) (rest : List WordObj) (w : WordObj) : WordObj :=
  { w with position :=
      ⟨JSNum.fin ((toQx w - qCx w0 rest) * qScale w0 rest),
       JSNum.fin ((toQy w - qCy w0 rest) * qScale w0 rest),
       JSNum.fin ((toQz w - qCz w0 rest) * qScale w0 rest)⟩ }

theorem bboxMinX_cons (w0 : WordObj) (rest : List WordObj)
    (h : ∀ w ∈ w0 :: rest, (w.position.x).isFin = true) :
    bboxMinX (w0 :: rest) = JSNum.fin (qMin toQx w0 rest) := by
  unfold bboxMinX qMin toQx
  exact foldl_jmin_posInf (fun w => w.position.x) w0 rest h

theorem bboxMaxX_cons (w0 : WordObj) (rest : List WordObj)
    (h : ∀ w ∈ w0 :: rest, (w.position.x).isFin = true) :
    bboxMaxX (w0 :: rest) = JSNum.fin (qMax toQx w0 rest) := by
  unfold bboxMaxX qMax toQx
  exact foldl_jmax_negInf (fun w => w.position.x) w0 rest h

theorem bboxMinY_cons (w0 : WordObj) (rest : List WordObj)
    (h : ∀ w ∈ w0 :: rest, (w.position.y).isFin = true) :
    bboxMinY (w0 :: rest) = JSNum.fin (qMin toQy w0 rest) := by
  unfold bboxMinY qMin toQy
  exact foldl_jmin_posInf (fun w => w.position.y) w0 rest h

theorem bboxMaxY_cons (w0 : WordObj) (rest : List WordObj)
    (h : ∀ w ∈ w0 :: rest, (w.position.y).isFin = true) :
    bboxMaxY (w0 :: rest) = JSNum.fin (qMax toQy w0 rest) := by
  unfold bboxMaxY qMax toQy
  exact foldl_jmax_negInf (fun w => w.position.y) w0 rest h

theorem bboxMinZ_cons (w0 : WordObj) (rest : List WordObj)
    (h : ∀ w ∈ w0 :: rest, (w.position.z).isFin = true) :
    bboxMinZ (w0 :: rest) = JSNum.fin (qMin toQz w0 rest) := by
  unfold bboxMinZ qMin toQz
  exact foldl_jmin_posInf (fun w => w.position.z) w0 rest h

theorem bboxMaxZ_cons (w0 : WordObj) (rest : List WordObj)
    (h : ∀ w ∈ w0 :: rest, (w.position.z).isFin = true) :
    bboxMaxZ (w0 :: rest) = JSNum.fin (qMax toQz w0 rest) := by
  unfold bboxMaxZ qMax toQz
  exact foldl_jmax_negInf (fun w => w.position.z) w0 rest h

theorem spanMax3_cons (w0 : WordObj) (rest : List WordObj)
    (hx : ∀ w ∈ w0 :: rest, (w.position.x).isFin = true)
    (hy : ∀ w ∈ w0 :: rest, (w.position.y).isFin = true)
    (hz : ∀ w ∈ w0 :: rest, (w.position.z).isFin = true) :
    spanMax3 (w0 :: rest) = JSNum.fin (qSpan w0 rest) := by
  unfold spanMax3 qSpan
  rw [bboxMinX_cons w0 rest hx, bboxMaxX_cons w0 rest hx, bboxMinY_cons w0 rest hy,
      bboxMaxY_cons w0 rest hy, bboxMinZ_cons w0 rest hz, bboxMaxZ_cons w0 rest hz,
      jsub_fin, jsub_fin, jsub_fin, jmax_fin, jmax_fin]

theorem qMin_map_affine (p : WordObj → ℚ) (G : WordObj → WordObj) (c s : ℚ)
    (hs : 0 ≤ s) (hpg : ∀ w, p (G w) = (p w - c) * s) (w0 : WordObj) (rest : List WordObj) :
    qMin p (G w0) (rest.map G) = (qMin p w0 rest - c) * s := by
  unfold qMin
  rw [List.foldl_map, hpg w0]
  have hfun : (fun acc w => min acc (p (G w))) = (fun acc w => min acc ((p w - c) * s)) := by
    funext acc w
    rw [hpg w]
  rw [hfun]
  exact foldl_min_affine p c s hs rest (p w0)

theorem qMax_map_affine (p : WordObj → ℚ) (G : WordObj → WordObj) (c s : ℚ)
    (hs : 0 ≤ s) (hpg : ∀ w, p (G w) = (p w - c) * s) (w0 : WordObj) (rest : List WordObj) :
    qMax p (G w0) (rest.map G) = (qMax p w0 rest - c) * s := by
  unfold qMax
  rw [List.foldl_map, hpg w0]
  have hfun : (fun acc w => max acc (p (G w))) = (fun acc w => max acc ((p w - c) * s)) := by
    funext acc w
    rw [hpg w]
  rw [hfun]
  exact foldl_max_affine p c s hs rest (p w0)

theorem normMap_fin_x (w0 : WordObj) (rest : List WordObj) (v : WordObj) :
    ((normMap w0 rest v).position.x).isFin = true := rfl

theorem normMap_fin_y (w0 : WordObj) (rest : List WordObj) (v : WordObj) :
    ((normMap w0 rest v).position.y).isFin = true := rfl

theorem normMap_fin_z (w0 : WordObj) (rest : List WordObj) (v : WordObj) :
    ((normMap w0 rest v).position.z).isFin = true := rfl

theorem normalizeData_cons (w0 : WordObj) (rest : List WordObj)
    (hx : ∀ w ∈ w0 :: rest, (w.position.x).isFin = true)
    (hy : ∀ w ∈ w0 :: rest, (w.position.y).isFin = true)
    (hz : ∀ w ∈ w0 :: rest, (w.position.z).isFin = true)
    (hsp : qSpan w0 rest ≠ 0) :
    normalizeData (w0 :: rest) = (w0 :: rest).map (normMap w0 rest) := by
  unfold normalizeData
  rw [bboxMinX_cons w0 rest hx, bboxMaxX_cons w0 rest hx, bboxMinY_cons w0 rest hy,
      bboxMaxY_cons w0 rest hy, bboxMinZ_cons w0 rest hz, bboxMaxZ_cons w0 rest hz,
      spanMax3_cons w0 rest hx hy hz, jadd_fin, jadd_fin, jadd_fin,
      jdiv_fin _ _ two_ne_zero, jdiv_fin _ _ two_ne_zero, jdiv_fin _ _ two_ne_zero,
      jdiv_fin _ _ hsp]
  apply List.map_congr_left
  intro w hw
  rw [normMap]
  rw [fin_toQ (hx w hw), fin_toQ (hy w hw), fin_toQ (hz w hw)]
  rw [jsub_fin, jsub_fin, jsub_fin, jmul_fin, jmul_fin, jmul_fin]
  rfl

/-! ## Claims -/

/-- Scenario-A dataset: three nodes `A`, `B`, `C`; `A`'s similarity list is
`[(B, 0.90), (C, 0.50)]`. -/
def scnAWords : List WordObj :=
  [{ word := ['A'], position := ⟨JSNum.fin 0, JSNum.fin 0, JSNum.fin 0⟩,
     categories := [], similar_words := [(['B'], 0.90), (['C'], 0.50)] },
   { word := ['B'], position := ⟨JSNum.fin 1, JSNum.fin 0, JSNum.fin 0⟩,
     categories := [], similar_words := [] },
   { word := ['C'], position := ⟨JSNum.fin 0, JSNum.fin 1, JSNum.fin 0⟩,
     categories := [], similar_words := [] }]

/-- C1: `createSemanticConnections` considers only the first two entries of
each node's similarity list and emits a directed edge to the named neighbor
exactly when the entry's score is `≥` the similarity threshold and the
neighbor exists in the dataset; unknown-neighbor entries are dropped
silently.  Consequently every node's out-degree is `≤ 2` (for datasets with
unique identifiers) and the total edge count is `≤ 2 × |nodes|`.  On the
Scenario-A dataset with the engine's threshold `0.55`, exactly the one edge
`A→B` is created. -/
theorem c1_graph_builder (thr : ℚ) (data : List WordObj)
    (hnodup : (data.map (fun w => w.word)).Nodup) :
    (∀ c ∈ createSemanticConnections thr data,
        ∃ w ∈ data, ∃ e ∈ w.similar_words.take 2,
          c = { userData := [("source", w.word), ("target", e.1)],
                colorMult := 15, opacity := 0.8, linewidth := 1 } ∧
          thr ≤ e.2 ∧ ∃ t ∈ data, t.word = e.1) ∧
    (∀ w ∈ data, ∀ e ∈ w.similar_words.take 2, thr ≤ e.2 →
        (∃ t ∈ data, t.word = e.1) →
        ({ userData := [("source", w.word), ("target", e.1)],
           colorMult := 15, opacity := 0.8, linewidth := 1 } : ConnState)
          ∈ createSemanticConnections thr data) ∧
    (∀ w ∈ data,
        (createSemanticConnections thr data).countP
          (fun c => connSource c == some w.word) ≤ 2) ∧
    (createSemanticConnections thr data).length ≤ 2 * data.length ∧
    createSemanticConnections similarityThreshold scnAWords =
      [{ userData := [("source", ['A']), ("target", ['B'])],
         colorMult := 15, opacity := 0.8, linewidth := 1 }] := by
  refine ⟨?_, ?_, ?_, ?_, ?_⟩
  · intro c hc
    rcases List.mem_flatMap.mp hc with ⟨w, hw, hcw⟩
    rcases connsOf_mem thr data w c hcw with ⟨e, he, hce, hle, hex⟩
    exact ⟨w, hw, e, he, hce, hle, hex⟩
  · intro w hw e he hle hex
    apply List.mem_flatMap.mpr
    refine ⟨w, hw, List.mem_filterMap.mpr ⟨e, he, ?_⟩⟩
    have hlt : ¬ e.2 < thr := not_lt.mpr hle
    have hsome : (data.find? (fun t => t.word == e.1)).isSome := by
      rw [List.find?_isSome]
      rcases hex with ⟨t, ht, hteq⟩
      exact ⟨t, ht, by simp [hteq]⟩
    rcases hfind : data.find? (fun t => t.word == e.1) with _ | t
    · rw [hfind] at hsome; simp at hsome
    · simp [hlt, hfind]
  · intro w hw
    rw [createSemanticConnections, countP_flatMap]
    exact outdeg_sum_le thr data data hnodup w hw
  · exact length_flatMap_le _ _ (fun a _ => length_connsOf_le thr data a)
  · have h1 : ¬((0.90 : ℚ) < similarityThreshold) := by norm_num [similarityThreshold]
    have h2 : (0.50 : ℚ) < similarityThreshold := by norm_num [similarityThreshold]
    simp only [createSemanticConnections, connsOf, scnAWords, List.flatMap_cons,
      List.flatMap_nil, List.take, List.filterMap, h1, h2, if_false, if_true,
      List.append_nil, List.find?]
    rfl

/-- C2: for a nonempty dataset with finite raw coordinates and a
non-degenerate bounding box, `normalizeData` computes the uniform scale
`500 / span` (`qScale`), sends each position to
`(position - center) * scale` (`normMap`, the spec's formula), and
afterwards the bounding box is centered at the origin (per-axis
`min + max = 0`) with largest axis span exactly `500`.  On the Scenario-B
dataset (raw box `[-100,100]` on every axis) the scale is `2.5` and the raw
point `(100,0,0)` maps to `(250,0,0)`. -/
theorem c2_normalize_spec (w0 : WordObj) (rest : List WordObj)
    (hx : ∀ w ∈ w0 :: rest, (w.position.x).isFin = true)
    (hy : ∀ w ∈ w0 :: rest, (w.position.y).isFin = true)
    (hz : ∀ w ∈ w0 :: rest, (w.position.z).isFin = true)
    (hsp : ∃ sp : ℚ, 0 < sp ∧ spanMax3 (w0 :: rest) = JSNum.fin sp) :
    jdiv (JSNum.fin 500) (spanMax3 (w0 :: rest)) = JSNum.fin (qScale w0 rest) ∧
    0 < qScale w0 rest ∧
    normalizeData (w0 :: rest) = (w0 :: rest).map (normMap w0 rest) ∧
    jadd (bboxMinX (normalizeData (w0 :: rest))) (bboxMaxX (normalizeData (w0 :: rest)))
      = JSNum.fin 0 ∧
    jadd (bboxMinY (normalizeData (w0 :: rest))) (bboxMaxY (normalizeData (w0 :: rest)))
      = JSNum.fin 0 ∧
    jadd (bboxMinZ (normalizeData (w0 :: rest))) (bboxMaxZ (normalizeData (w0 :: rest)))
      = JSNum.fin 0 ∧
    spanMax3 (normalizeData (w0 :: rest)) = JSNum.fin 500 ∧
    jdiv (JSNum.fin 500) (spanMax3 demoWords) = JSNum.fin (5/2) ∧
    (normalizeData demoWords).map (fun w => w.position) =
      [⟨JSNum.fin (-250), JSNum.fin (-250), JSNum.fin (-250)⟩,
       ⟨JSNum.fin 250, JSNum.fin 250, JSNum.fin 250⟩,
       ⟨JSNum.fin 250, JSNum.fin 0, JSNum.fin 0⟩] := by
  obtain ⟨sp, hsppos, hspeq⟩ := hsp
  have hspan := spanMax3_cons w0 rest hx hy hz
  have hqsp : qSpan w0 rest = sp := by
    rw [hspan] at hspeq
    simpa using hspeq
  have hqsppos : 0 < qSpan w0 rest := by rw [hqsp]; exact hsppos
  have hqspne : qSpan w0 rest ≠ 0 := ne_of_gt hqsppos
  have hA : jdiv (JSNum.fin 500) (spanMax3 (w0 :: rest)) = JSNum.fin (qScale w0 rest) := by
    rw [hspan, jdiv_fin _ _ hqspne]
    rfl
  have hB : 0 < qScale w0 rest := div_pos (by norm_num) hqsppos
  have hs0 : (0:ℚ) ≤ qScale w0 rest := le_of_lt hB
  have hC := normalizeData_cons w0 rest hx hy hz hqspne
  have hx' : ∀ w ∈ normMap w0 rest w0 :: rest.map (normMap w0 rest),
      (w.position.x).isFin = true := by
    intro w hw
    rcases List.mem_cons.mp hw with h | h
    · rw [h]; rfl
    · rcases List.mem_map.mp h with ⟨v, _, hv⟩
      rw [← hv]; rfl
  have hy' : ∀ w ∈ normMap w0 rest w0 :: rest.map (normMap w0 rest),
      (w.position.y).isFin = true := by
    intro w hw
    rcases List.mem_cons.mp hw with h | h
    · rw [h]; rfl
    · rcases List.mem_map.mp h with ⟨v, _, hv⟩
      rw [← hv]; rfl
  have hz' : ∀ w ∈ normMap w0 rest w0 :: rest.map (normMap w0 rest),
      (w.position.z).isFin = true := by
    intro w hw
    rcases List.mem_cons.mp hw with h | h
    · rw [h]; rfl
    · rcases List.mem_map.mp h with ⟨v, _, hv⟩
      rw [← hv]; rfl
  have hminX' : bboxMinX ((w0 :: rest).map (normMap w0 rest))
      = JSNum.fin ((qMin toQx w0 rest - qCx w0 rest) * qScale w0 rest) := by
    rw [List.map_cons, bboxMinX_cons _ _ hx',
      qMin_map_affine toQx (normMap w0 rest) (qCx w0 rest) (qScale w0 rest) hs0
        (fun v => rfl) w0 rest]
  have hmaxX' : bboxMaxX ((w0 :: rest).map (normMap w0 rest))
      = JSNum.fin ((qMax toQx w0 rest - qCx w0 rest) * qScale w0 rest) := by
    rw [List.map_cons, bboxMaxX_cons _ _ hx',
      qMax_map_affine toQx (normMap w0 rest) (qCx w0 rest) (qScale w0 rest) hs0
        (fun v => rfl) w0 rest]
  have hminY' : bboxMinY ((w0 :: rest).map (normMap w0 rest))
      = JSNum.fin ((qMin toQy w0 rest - qCy w0 rest) * qScale w0 rest) := by
    rw [List.map_cons, bboxMinY_cons _ _ hy',
      qMin_map_affine toQy (normMap w0 rest) (qCy w0 rest) (qScale w0 rest) hs0
        (fun v => rfl) w0 rest]
  have hmaxY' : bboxMaxY ((w0 :: rest).map (normMap w0 rest))
      = JSNum.fin ((qMax toQy w0 rest - qCy w0 rest) * qScale w0 rest) := by
    rw [List.map_cons, bboxMaxY_cons _ _ hy',
      qMax_map_affine toQy (normMap w0 rest) (qCy w0 rest) (qScale w0 rest) hs0
        (fun v => rfl) w0 rest]
  have hminZ' : bboxMinZ ((w0 :: rest).map (normMap w0 rest))
      = JSNum.fin ((qMin toQz w0 rest - qCz w0 rest) * qScale w0 rest) := by
    rw [List.map_cons, bboxMinZ_cons _ _ hz',
      qMin_map_affine toQz (normMap w0 rest) (qCz w0 rest) (qScale w0 rest) hs0
        (fun v => rfl) w0 rest]
  have hmaxZ' : bboxMaxZ ((w0 :: rest).map (normMap w0 rest))
      = JSNum.fin ((qMax toQz w0 rest - qCz w0 rest) * qScale w0 rest) := by
    rw [List.map_cons, bboxMaxZ_cons _ _ hz',
      qMax_map_affine toQz (normMap w0 rest) (qCz w0 rest) (qScale w0 rest) hs0
        (fun v => rfl) w0 rest]
  have hD : jadd (bboxMinX (normalizeData (w0 :: rest)))
      (bboxMaxX (normalizeData (w0 :: rest))) = JSNum.fin 0 := by
    rw [hC, hminX', hmaxX', jadd_fin]
    congr 1
    simp only [qCx]
    ring
  have hE : jadd (bboxMinY (normalizeData (w0 :: rest)))
      (bboxMaxY (normalizeData (w0 :: rest))) = JSNum.fin 0 := by
    rw [hC, hminY', hmaxY', jadd_fin]
    congr 1
    simp only [qCy]
    ring
  have hF : jadd (bboxMinZ (normalizeData (w0 :: rest)))
      (bboxMaxZ (normalizeData (w0 :: rest))) = JSNum.fin 0 := by
    rw [hC, hminZ', hmaxZ', jadd_fin]
    congr 1
    simp only [qCz]
    ring
  have hG : spanMax3 (normalizeData (w0 :: rest)) = JSNum.fin 500 := by
    rw [hC, List.map_cons, spanMax3_cons _ _ hx' hy' hz']
    congr 1
    unfold qSpan
    rw [qMin_map_affine toQx (normMap w0 rest) (qCx w0 rest) (qScale w0 rest) hs0
        (fun v => rfl) w0 rest,
      qMax_map_affine toQx (normMap w0 rest) (qCx w0 rest) (qScale w0 rest) hs0
        (fun v => rfl) w0 rest,
      qMin_map_affine toQy (normMap w0 rest) (qCy w0 rest) (qScale w0 rest) hs0
        (fun v => rfl) w0 rest,
      qMax_map_affine toQy (normMap w0 rest) (qCy w0 rest) (qScale w0 rest) hs0
        (fun v => rfl) w0 rest,
      qMin_map_affine toQz (normMap w0 rest) (qCz w0 rest) (qScale w0 rest) hs0
        (fun v => rfl) w0 rest,
      qMax_map_affine toQz (normMap w0 rest) (qCz w0 rest) (qScale w0 rest) hs0
        (fun v => rfl) w0 rest]
    have hdx : (qMax toQx w0 rest - qCx w0 rest) * qScale w0 rest
        - (qMin toQx w0 rest - qCx w0 rest) * qScale w0 rest
        = (qMax toQx w0 rest - qMin toQx w0 rest) * qScale w0 rest := by ring
    have hdy : (qMax toQy w0 rest - qCy w0 rest) * qScale w0 rest
        - (qMin toQy w0 rest - qCy w0 rest) * qScale w0 rest
        = (qMax toQy w0 rest - qMin toQy w0 rest) * qScale w0 rest := by ring
    have hdz : (qMax toQz w0 rest - qCz w0 rest) * qScale w0 rest
        - (qMin toQz w0 rest - qCz w0 rest) * qScale w0 rest
        = (qMax toQz w0 rest - qMin toQz w0 rest) * qScale w0 rest := by ring
    rw [hdx, hdy, hdz, ← rmax_mul _ _ _ hs0, ← rmax_mul _ _ _ hs0]
    show qSpan w0 rest * qScale w0 rest = 500
    rw [qScale, mul_comm]
    exact div_mul_cancel₀ 500 hqspne
  refine ⟨hA, hB, hC, hD, hE, hF, hG, ?_, ?_⟩
  · norm_num [jdiv, spanMax3, bboxMinX, bboxMinY, bboxMinZ, bboxMaxX, bboxMaxY, bboxMaxZ,
      jmin, jmax, jsub, demoWords, dw0, dw1, dw2]
  · norm_num [normalizeData, jdiv, spanMax3, bboxMinX, bboxMinY, bboxMinZ, bboxMaxX, bboxMaxY,
      bboxMaxZ, jmin, jmax, jsub, jadd, jmul, demoWords, dw0, dw1, dw2]

/-- Witness for C2 at the Scenario-B dataset. -/
theorem c2_normalize_spec_witness :
    spanMax3 (normalizeData (dw0 :: [dw1, dw2])) = JSNum.fin 500 ∧
    jadd (bboxMinX (normalizeData (dw0 :: [dw1, dw2])))
      (bboxMaxX (normalizeData (dw0 :: [dw1, dw2]))) = JSNum.fin 0 ∧
    normalizeData (dw0 :: [dw1, dw2]) = (dw0 :: [dw1, dw2]).map (normMap dw0 [dw1, dw2]) := by
  have h := c2_normalize_spec dw0 [dw1, dw2]
    (by intro w hw; fin_cases hw <;> rfl)
    (by intro w hw; fin_cases hw <;> rfl)
    (by intro w hw; fin_cases hw <;> rfl)
    ⟨200, by norm_num,
      by norm_num [spanMax3, bboxMinX, bboxMinY, bboxMinZ, bboxMaxX, bboxMaxY, bboxMaxZ,
        jmin, jmax, jsub, dw0, dw1, dw2]⟩
  exact ⟨h.2.2.2.2.2.2.1, h.2.2.2.1, h.2.2.1⟩

/-- C3 (code bug): on a degenerate dataset — every node at the same raw
position `(1,2,3)` — `normalizeData` performs no check at all: the largest
axis range is `0`, the scale becomes `500 / 0 = Infinity`, and every output
coordinate is `(x - x) * Infinity = NaN`.  No `NormalizationError` exists
anywhere in the code (the function is total and returns the corrupted
list), contradicting the claim that the degenerate case is detected and
that no non-finite coordinate is ever produced. -/
theorem c3_degenerate_nan :
    spanMax3 degWords = JSNum.fin 0 ∧
    jdiv (JSNum.fin 500) (spanMax3 degWords) = JSNum.posInf ∧
    (normalizeData degWords).map (fun w => w.position) =
      [⟨JSNum.nan, JSNum.nan, JSNum.nan⟩, ⟨JSNum.nan, JSNum.nan, JSNum.nan⟩] ∧
    ((normalizeData degWords).map (fun w => w.position)).all
      (fun p => !p.x.isFin && !p.y.isFin && !p.z.isFin) = true := by
  refine ⟨?_, ?_, ?_, ?_⟩ <;>
    norm_num [normalizeData, jdiv, spanMax3, bboxMinX, bboxMinY, bboxMinZ, bboxMaxX,
      bboxMaxY, bboxMaxZ, jmin, jmax, jsub, jadd, jmul, degWords, JSNum.isFin]

theorem hasPre_iff (s q : Word) : hasPre s q = true ↔ ∃ r, s = q ++ r := by
  induction q generalizing s with
  | nil => simp [hasPre]
  | cons d q' ih =>
      cases s with
      | nil => simp [hasPre]
      | cons c t =>
          rw [hasPre]
          simp only [Bool.and_eq_true, beq_iff_eq, ih, List.cons_append, List.cons.injEq]
          constructor
          · rintro ⟨hcd, r, hr⟩
            exact ⟨r, hcd, hr⟩
          · rintro ⟨r, hcd, hr⟩
            exact ⟨hcd, r, hr⟩

theorem hasSub_iff (s q : Word) : hasSub s q = true ↔ ∃ pre post, s = pre ++ q ++ post := by
  induction s with
  | nil =>
      rw [hasSub, hasPre_iff]
      constructor
      · rintro ⟨r, hr⟩
        exact ⟨[], r, hr⟩
      · rintro ⟨pre, post, h⟩
        cases pre with
        | nil => exact ⟨post, h⟩
        | cons a l => simp at h
  | cons c t ih =>
      rw [hasSub, Bool.or_eq_true, hasPre_iff, ih]
      constructor
      · rintro (⟨r, hr⟩ | ⟨pre, post, h⟩)
        · exact ⟨[], r, hr⟩
        · exact ⟨c :: pre, post, by simp [h]⟩
      · rintro ⟨pre, post, h⟩
        cases pre with
        | nil => exact Or.inl ⟨post, by simpa using h⟩
        | cons a l =>
            simp only [List.cons_append, List.cons.injEq] at h
            exact Or.inr ⟨l, post, h.2⟩

theorem mem_computeHighlighted_aux (data : List WordObj) (query : Word) (x : Word) :
    ∀ acc : List Word,
      (x ∈ data.foldl (fun acc w =>
          if directMatch query w then
            (acc ++ [w.word]) ++ w.similar_words.map (fun s => s.1)
          else acc) acc) ↔
      x ∈ acc ∨ ∃ w ∈ data, directMatch query w = true ∧
        (x = w.word ∨ x ∈ w.similar_words.map (fun s => s.1)) := by
  induction data with
  | nil => simp
  | cons d rest ih =>
      intro acc
      rw [List.foldl_cons]
      cases hd : directMatch query d
      · rw [if_neg (by simp [hd]), ih]
        simp only [List.exists_mem_cons_iff, hd]
        aesop
      · rw [if_pos rfl, ih]
        simp only [List.mem_append, List.mem_singleton, List.mem_cons,
          List.exists_mem_cons_iff, hd, List.not_mem_nil, or_false, true_and]
        aesop

theorem mem_computeHighlighted (data : List WordObj) (query : Word) (x : Word) :
    x ∈ computeHighlighted data query ↔
      ∃ w ∈ data, directMatch query w = true ∧
        (x = w.word ∨ x ∈ w.similar_words.map (fun s => s.1)) := by
  rw [computeHighlighted]
  rw [mem_computeHighlighted_aux data query x []]
  simp

theorem performSearch_highlighted (st : VisState) (hq : toLowerW st.searchQuery ≠ []) :
    (performSearch st).highlightedWords
      = computeHighlighted st.wordData (toLowerW st.searchQuery) := by
  simp only [performSearch]
  rw [if_neg hq]
  rfl

theorem directMatch_iff (query : Word) (w : WordObj) :
    directMatch query w = true ↔
      ((∃ pre post, toLowerW w.word = pre ++ query ++ post) ∨
       ∃ c ∈ w.categories, ∃ pre post, toLowerW c = pre ++ query ++ post) := by
  rw [directMatch, Bool.or_eq_true, hasSub_iff, List.any_eq_true]
  constructor
  · rintro (h | ⟨c, hc, hsub⟩)
    · exact Or.inl h
    · exact Or.inr ⟨c, hc, (hasSub_iff _ _).mp hsub⟩
  · rintro (h | ⟨c, hc, hsub⟩)
    · exact Or.inl h
    · exact Or.inr ⟨c, hc, (hasSub_iff _ _).mpr hsub⟩

/-- C4: for a non-empty (lowercased) query, the highlighted word set
computed by `performSearch` is exactly the set of words of nodes whose word
or one of whose category tags contains the query as a (case-insensitively
lowercased) contiguous substring, together with every neighbor word
occurring in the similarity list of such a directly matched node — one hop
only. -/
theorem c4_search_set (st : VisState) (hq : toLowerW st.searchQuery ≠ []) :
    ∀ x : Word, x ∈ (performSearch st).highlightedWords ↔
      ∃ w ∈ st.wordData,
        ((∃ pre post, toLowerW w.word = pre ++ toLowerW st.searchQuery ++ post) ∨
         ∃ c ∈ w.categories, ∃ pre post, toLowerW c = pre ++ toLowerW st.searchQuery ++ post) ∧
        (x = w.word ∨ x ∈ w.similar_words.map (fun s => s.1)) := by
  intro x
  rw [performSearch_highlighted st hq, mem_computeHighlighted]
  constructor
  · rintro ⟨w, hw, hm, ho⟩
    exact ⟨w, hw, (directMatch_iff _ _).mp hm, ho⟩
  · rintro ⟨w, hw, hm, ho⟩
    exact ⟨w, hw, (directMatch_iff _ _).mpr hm, ho⟩

/-- The single dataset entry of the C4 witness state. -/
def c4Word : WordObj :=
  { word := "note".toList, position := ⟨JSNum.fin 0, JSNum.fin 0, JSNum.fin 0⟩,
    categories := ["media".toList], similar_words := [("pen".toList, 0.9)] }

/-- A state about to search for `"note"` over the one-entry dataset. -/
def c4St : VisState :=
  { wordData := [c4Word], nodes := [], labels := [], conns := [],
    highlightedWords := [], searchQuery := "note".toList, hoveredNode := none }

/-- Witness for C4: searching `"note"` highlights the similarity neighbor
`"pen"` (one-hop expansion). -/
theorem c4_search_set_witness :
    toLowerW c4St.searchQuery ≠ [] ∧
    "pen".toList ∈ (performSearch c4St).highlightedWords :=
  ⟨by decide,
   (c4_search_set c4St (by decide) "pen".toList).mpr
     ⟨c4Word, List.mem_singleton.mpr rfl,
      Or.inl ⟨[], [], by decide⟩,
      Or.inr (by decide)⟩⟩

/-- First node of the C5/C6 dataset (`"aa"`, similar to `"ab"` at 0.9). -/
def c5wA : WordObj :=
  { word := "aa".toList, position := ⟨JSNum.fin 0, JSNum.fin 0, JSNum.fin 0⟩,
    categories := [], similar_words := [("ab".toList, 0.9)] }

/-- Second node of the C5/C6 dataset (`"ab"`). -/
def c5wB : WordObj :=
  { word := "ab".toList, position := ⟨JSNum.fin 1, JSNum.fin 0, JSNum.fin 0⟩,
    categories := [], similar_words := [] }

/-- The C5/C6 dataset: one edge `aa → ab` survives the threshold. -/
def c5Words : List WordObj := [c5wA, c5wB]

/-- The scene for `c5Words` with the search box containing `"a"`. -/
def c5St0 : VisState :=
  { initScene similarityThreshold c5Words with searchQuery := "a".toList }

/-- The connection `aa → ab` as `createSemanticConnections` builds it. -/
def c5conn : ConnState :=
  { userData := [("source", "aa".toList), ("target", "ab".toList)],
    colorMult := 15, opacity := 0.8, linewidth := 1 }

theorem c5Words_conns :
    createSemanticConnections similarityThreshold c5Words = [c5conn] := by
  have h1 : ¬((0.9 : ℚ) < similarityThreshold) := by norm_num [similarityThreshold]
  simp only [createSemanticConnections, connsOf, c5Words, c5wA, c5wB, List.flatMap_cons,
    List.flatMap_nil, List.take, List.filterMap, h1, if_false, List.append_nil,
    List.find?]
  rfl

theorem c5St0_eq :
    c5St0 = { wordData := c5Words, nodes := createWordNodes c5Words,
              labels := createWordLabels c5Words, conns := [c5conn],
              highlightedWords := [], searchQuery := "a".toList, hoveredNode := none } := by
  simp only [c5St0, initScene, c5Words_conns]

/-- C5 (code bug): after searching `"a"` over `c5Words`, both endpoint words
of the single connection `aa → ab` are in the matched set, yet the
connection's opacity is `0.02` (dimmed), not `1.0` — `applyHighlighting`
reads `line.userData.from` / `line.userData.to`, which were never set
(connections store `source` / `target`), so `Set.has(undefined)` is always
`false` and the bright branch is unreachable. -/
theorem c5_edge_highlight_bug :
    "aa".toList ∈ (performSearch c5St0).highlightedWords ∧
    "ab".toList ∈ (performSearch c5St0).highlightedWords ∧
    (performSearch c5St0).conns.map connSource = [some ("aa".toList)] ∧
    (performSearch c5St0).conns.map connTarget = [some ("ab".toList)] ∧
    (performSearch c5St0).conns.map (fun c => c.opacity) = [0.02] ∧
    (0.02 : ℚ) ≠ 1.0 := by
  rw [c5St0_eq]
  refine ⟨by decide, by decide, by rfl, by rfl, by rfl, by norm_num⟩

/-- C6 counterexample: with the search `"a"` active (connection dimmed to
`0.02` by the search highlight), hovering node 1 and then releasing the
hover leaves the connection at the unconditional baseline `0.4` — not at
the search-highlight value `0.02` — even though the query is still
non-empty.  The search highlight state is not restored. -/
theorem c6_hover_release_counterexample :
    (performSearch c5St0).searchQuery = "a".toList ∧
    (performSearch c5St0).conns.map (fun c => c.opacity) = [0.02] ∧
    (handleHover none (handleHover (some 1) (performSearch c5St0))).searchQuery
      = "a".toList ∧
    (handleHover none (handleHover (some 1) (performSearch c5St0))).hoveredNode = none ∧
    (handleHover none (handleHover (some 1) (performSearch c5St0))).conns.map
      (fun c => c.opacity) = [0.4] ∧
    (0.4 : ℚ) ≠ 0.02 ∧ "a".toList ≠ [] := by
  rw [c5St0_eq]
  exact ⟨rfl, rfl, rfl, rfl, rfl, by norm_num, by decide⟩

/-- C6 as amended: when the pointer ray stops hitting any node while a node
is hovered, `handleHover` runs `resetNodeState` on the hovered node and
clears the hover; `resetNodeState` unconditionally sets every connection to
the fixed baseline (color `0x25D366`, opacity `0.4`) regardless of the
active search query — the search highlight is not re-applied. -/
theorem c6_hover_release_amended (st : VisState) (j : Nat)
    (hj : st.hoveredNode = some j) :
    handleHover none st = { resetNodeState j st with hoveredNode := none } ∧
    ∀ c ∈ (handleHover none st).conns, c.colorMult = 1 ∧ c.opacity = 0.4 := by
  have h1 : handleHover none st = { resetNodeState j st with hoveredNode := none } := by
    simp only [handleHover, hj]
  refine ⟨h1, ?_⟩
  intro c hc
  rw [h1] at hc
  simp only [resetNodeState] at hc
  rcases List.mem_map.mp hc with ⟨line, _, hline⟩
  rw [← hline]
  exact ⟨rfl, rfl⟩

/-- Witness for the amended C6 at the concrete hover-then-release run. -/
theorem c6_hover_release_amended_witness :
    handleHover none (handleHover (some 1) (performSearch c5St0)) =
      { resetNodeState 1 (handleHover (some 1) (performSearch c5St0)) with
        hoveredNode := none } :=
  (c6_hover_release_amended (handleHover (some 1) (performSearch c5St0)) 1
    (by rw [c5St0_eq]; rfl)).1

theorem count_filter_eq {α : Type} [DecidableEq α] (g : α → Bool) (c : α) (l : List α)
    (hg : g c = true) : (l.filter g).count c = l.count c := by
  induction l with
  | nil => rfl
  | cons a t ih =>
      cases hga : g a
      · have hac : c ≠ a := by
          intro h
          rw [← h, hg] at hga
          simp at hga
        rw [List.filter_cons_of_neg (by simp [hga]), ih, List.count_cons_of_ne hac]
      · rw [List.filter_cons_of_pos (by simp [hga])]
        simp [List.count_cons, ih]

theorem count_filter_zero {α : Type} [DecidableEq α] (g : α → Bool) (c : α) (l : List α)
    (hg : g c = false) : (l.filter g).count c = 0 := by
  rw [List.count_eq_zero]
  intro hc
  rcases List.mem_filter.mp hc with ⟨_, hgc⟩
  rw [hg] at hgc
  simp at hgc

/-- Scenario-C connection `X → Y`. -/
def scnCXY : ConnState :=
  { userData := [("source", "X".toList), ("target", "Y".toList)],
    colorMult := 15, opacity := 0.8, linewidth := 1 }

/-- Scenario-C connection `Z → X`. -/
def scnCZX : ConnState :=
  { userData := [("source", "Z".toList), ("target", "X".toList)],
    colorMult := 15, opacity := 0.8, linewidth := 1 }

/-- Scenario-C connection `P → Q`, unrelated to `X`. -/
def scnCPQ : ConnState :=
  { userData := [("source", "P".toList), ("target", "Q".toList)],
    colorMult := 15, opacity := 0.8, linewidth := 1 }

/-- The Scenario-C connection list. -/
def scnCConns : List ConnState := [scnCXY, scnCZX, scnCPQ]

/-- C7: when node `X` becomes hovered, `triggerNeuralActivity` sets every
connection whose `source` or `target` is `X` to the overload color
(`0x25D366` × 50) at opacity `1.0` and spawns exactly one spark along it,
while every other connection is dimmed to color × 5 at opacity `0.2` —
strictly positive, never fully invisible; the breathing step of the next
frames keeps every opacity strictly positive as well.  On Scenario C
(`X→Y`, `Z→X`, `P→Q`) the two edges touching `X` are overloaded and `P→Q`
is dimmed but visible. -/
theorem c7_trigger_neural (w : Word) (conns : List ConnState) :
    List.Forall₂ (fun c c' =>
        (touches w c = true → c' = { c with colorMult := 50, opacity := 1.0 }) ∧
        (touches w c = false → c' = { c with colorMult := 5, opacity := 0.2 }) ∧
        0 < c'.opacity)
      conns (triggerNeuralActivity w conns).1 ∧
    (∀ c, c ∈ (triggerNeuralActivity w conns).2 ↔ c ∈ conns ∧ touches w c = true) ∧
    (∀ c, touches w c = true →
        (triggerNeuralActivity w conns).2.count c = conns.count c) ∧
    (∀ c, touches w c = false → (triggerNeuralActivity w conns).2.count c = 0) ∧
    (∀ s : ℚ, -1 ≤ s → s ≤ 1 →
        ∀ c ∈ animateConns s (triggerNeuralActivity w conns).1, 0 < c.opacity) ∧
    (triggerNeuralActivity "X".toList scnCConns).1.map
        (fun c => (c.colorMult, c.opacity)) = [(50, 1.0), (50, 1.0), (5, 0.2)] := by
  have hpos : ∀ c ∈ (triggerNeuralActivity w conns).1, 0 < c.opacity := by
    intro c hc
    rcases List.mem_map.mp hc with ⟨line, _, hline⟩
    by_cases ht : touches w line
    · rw [if_pos ht] at hline
      rw [← hline]
      norm_num
    · rw [if_neg ht] at hline
      rw [← hline]
      norm_num
  refine ⟨?_, ?_, ?_, ?_, ?_, ?_⟩
  · simp only [triggerNeuralActivity]
    rw [List.forall₂_map_right_iff, List.forall₂_same]
    intro line hline
    cases ht : touches w line
    · refine ⟨fun htt => absurd htt (by simp), fun _ => by rw [if_neg (by simp)], ?_⟩
      rw [if_neg (by simp)]
      exact (by norm_num : (0:ℚ) < 0.2)
    · refine ⟨fun _ => by rw [if_pos rfl], fun hff => absurd hff (by simp), ?_⟩
      rw [if_pos rfl]
      exact (by norm_num : (0:ℚ) < 1.0)
  · intro c
    exact List.mem_filter
  · intro c ht
    exact count_filter_eq (fun line => touches w line) c conns ht
  · intro c ht
    exact count_filter_zero (fun line => touches w line) c conns ht
  · intro s hs1 hs2 c hc
    rcases List.mem_map.mp hc with ⟨line, hline_mem, hline⟩
    by_cases hop : line.opacity < 1.0
    · rw [if_pos hop] at hline
      rw [← hline]
      show (0:ℚ) < 0.3 + (0.5 + s * 0.3) * 0.4
      nlinarith
    · rw [if_neg hop] at hline
      rw [← hline]
      exact hpos line hline_mem
  · rfl

/-- Witness for C7 on Scenario C: one spark for `X→Y`, none for `P→Q`. -/
theorem c7_trigger_neural_witness :
    touches "X".toList scnCXY = true ∧
    (triggerNeuralActivity "X".toList scnCConns).2.count scnCXY
      = scnCConns.count scnCXY ∧
    (triggerNeuralActivity "X".toList scnCConns).2.count scnCPQ = 0 :=
  ⟨by decide,
   (c7_trigger_neural "X".toList scnCConns).2.2.1 scnCXY (by decide),
   (c7_trigger_neural "X".toList scnCConns).2.2.2.1 scnCPQ (by decide)⟩

/-- C8 counterexample: connections are created at opacity `0.8` and nodes at
emissive intensity `0` / opacity `1`, but after searching `"a"` and then
clearing the query the connections sit at `0.4` and the nodes at emissive
`1.5` / opacity `0.9` — the reset baseline differs from the creation-time
state, so search-then-clear is not the identity on the visual state. -/
theorem c8_clear_query_counterexample :
    (initScene similarityThreshold c5Words).conns.map (fun c => c.opacity) = [0.8] ∧
    (initScene similarityThreshold c5Words).nodes.map (fun n => n.emissiveIntensity)
      = [0, 0] ∧
    (initScene similarityThreshold c5Words).nodes.map (fun n => n.opacity) = [1, 1] ∧
    (setQuery [] (setQuery "a".toList (initScene similarityThreshold c5Words))).conns.map
      (fun c => c.opacity) = [0.4] ∧
    (setQuery [] (setQuery "a".toList (initScene similarityThreshold c5Words))).nodes.map
      (fun n => n.emissiveIntensity) = [1.5, 1.5] ∧
    (setQuery [] (setQuery "a".toList (initScene similarityThreshold c5Words))).nodes.map
      (fun n => n.opacity) = [0.9, 0.9] ∧
    ((0.4 : ℚ) ≠ 0.8 ∧ (1.5 : ℚ) ≠ 0 ∧ (0.9 : ℚ) ≠ 1) := by
  have hscene : initScene similarityThreshold c5Words =
      { wordData := c5Words, nodes := createWordNodes c5Words,
        labels := createWordLabels c5Words, conns := [c5conn],
        highlightedWords := [], searchQuery := [], hoveredNode := none } := by
    simp only [initScene, c5Words_conns]
  rw [hscene]
  exact ⟨rfl, rfl, rfl, rfl, rfl, rfl, by norm_num, by norm_num, by norm_num⟩

/-- C8 as amended: clearing the query (`setQuery ""`) puts every node at
emissive intensity `1.5`, opacity `0.9`, scale `1`, makes every label
visible, and puts every connection at opacity `0.4` — a fixed baseline
independent of the prior state; creation instead gives nodes emissive `0`
and opacity `1` and connections opacity `0.8`, so the round trip is not the
identity on the visual state. -/
theorem c8_clear_query_amended (st : VisState) (data : List WordObj) (thr : ℚ) :
    (setQuery [] st).nodes = st.nodes.map (fun n =>
      { n with emissiveIntensity := 1.5, opacity := 0.9, scale := 1 }) ∧
    (setQuery [] st).labels = st.labels.map (fun l => { l with visible := true }) ∧
    (setQuery [] st).conns = st.conns.map (fun c => { c with opacity := 0.4 }) ∧
    (setQuery [] st).searchQuery = [] ∧
    (∀ c ∈ createSemanticConnections thr data, c.opacity = 0.8) ∧
    (∀ n ∈ createWordNodes data, n.emissiveIntensity = 0 ∧ n.opacity = 1 ∧ n.scale = 1) ∧
    ((0.4 : ℚ) ≠ 0.8 ∧ (1.5 : ℚ) ≠ 0 ∧ (0.9 : ℚ) ≠ 1) := by
  have hset : setQuery [] st =
      resetHighlighting { st with searchQuery := [], highlightedWords := [] } := by
    simp only [setQuery, performSearch]
    rw [if_pos (show toLowerW (jsTrim (toLowerW ([] : Word))) = [] from rfl)]
    rfl
  refine ⟨?_, ?_, ?_, ?_, ?_, ?_, by norm_num, by norm_num, by norm_num⟩
  · rw [hset]; rfl
  · rw [hset]; rfl
  · rw [hset]; rfl
  · rw [hset]; rfl
  · intro c hc
    rcases List.mem_flatMap.mp hc with ⟨w, _, hcw⟩
    rcases connsOf_mem thr data w c hcw with ⟨e, _, hce, _, _⟩
    rw [hce]
  · intro n hn
    rcases List.mem_map.mp hn with ⟨w, _, hw⟩
    rw [← hw]
    exact ⟨rfl, rfl, rfl⟩

/-- Witness for the amended C8 on the two-node scene. -/
theorem c8_clear_query_amended_witness :
    (setQuery [] (setQuery "a".toList (initScene similarityThreshold c5Words))).conns
      = (setQuery "a".toList (initScene similarityThreshold c5Words)).conns.map
          (fun c => { c with opacity := 0.4 }) ∧
    c5conn.opacity = 0.8 :=
  ⟨(c8_clear_query_amended (setQuery "a".toList (initScene similarityThreshold c5Words))
      c5Words similarityThreshold).2.2.1,
   (c8_clear_query_amended (setQuery "a".toList (initScene similarityThreshold c5Words))
      c5Words similarityThreshold).2.2.2.2.1 c5conn
     (by rw [c5Words_conns]; exact List.mem_singleton.mpr rfl)⟩

/-- C9 (code bug): when the fetch/parse of `embedding-data.json` fails, the
`try { ... } catch (e) { console.error(e); }` wrapper logs the error and
swallows it: nothing is surfaced to the caller, and the line hiding the
`loading` element is never reached, so the loading indicator stays
displayed indefinitely.  No `DataLoadError` exists in the code. -/
theorem c9_load_failure_swallowed (thr : ℚ) :
    (loadWordEmbeddings thr none).loadingHidden = false ∧
    (loadWordEmbeddings thr none).consoleErrorLogged = true ∧
    (loadWordEmbeddings thr none).errorSurfaced = false ∧
    (loadWordEmbeddings thr none).state = none :=
  ⟨rfl, rfl, rfl, rfl⟩

/-- C10 counterexample: one breathing step at `sin = 0` rewrites a
hover-dimmed connection (opacity `0.2`) and a search-dimmed connection
(opacity `0.02`) to `0.3 + (0.5 + 0·0.3)·0.4 = 0.5`: the guard
`opacity < 1.0` only protects overloaded (opacity `1.0`) lines, not
highlight-dimmed ones, so the highlight-assigned opacities do not survive
the next frame. -/
theorem c10_breathing_counterexample :
    (animateConns 0 ((triggerNeuralActivity "X".toList scnCConns).1)).map
      (fun c => c.opacity) = [1.0, 1.0, 0.5] ∧
    (animateConns 0 ((performSearch c5St0).conns)).map (fun c => c.opacity) = [0.5] ∧
    (0.5 : ℚ) ≠ 0.2 ∧ (0.5 : ℚ) ≠ 0.02 := by
  have htr : (triggerNeuralActivity "X".toList scnCConns).1 =
      [{ scnCXY with colorMult := 50, opacity := 1.0 },
       { scnCZX with colorMult := 50, opacity := 1.0 },
       { scnCPQ with colorMult := 5, opacity := 0.2 }] := rfl
  have hsearch : (performSearch c5St0).conns = [{ c5conn with opacity := 0.02, linewidth := 1 }] := by
    rw [c5St0_eq]
    rfl
  rw [htr, hsearch]
  refine ⟨?_, ?_, by norm_num, by norm_num⟩
  · norm_num [animateConns, scnCXY, scnCZX, scnCPQ]
  · norm_num [animateConns, c5conn]

/-- C10 as amended: the breathing step overwrites the opacity of every
connection whose current opacity is `< 1.0` — including connections dimmed
by search (`0.02`) or by hover (`0.2`) — setting it to
`0.3 + (0.5 + sin·0.3)·0.4`; only connections at opacity `≥ 1.0` (the
hover-overloaded ones) keep their assigned opacity, and for every sine
value in `[-1,1]` the breathing value differs from both dim values and
stays strictly positive. -/
theorem c10_breathing_amended (s : ℚ) (conns : List ConnState) :
    List.Forall₂ (fun c c' =>
        (c.opacity < 1.0 → c'.opacity = 0.3 + (0.5 + s * 0.3) * 0.4) ∧
        (¬ c.opacity < 1.0 → c' = c))
      conns (animateConns s conns) ∧
    (∀ t : ℚ, -1 ≤ t → t ≤ 1 →
        0.3 + (0.5 + t * 0.3) * 0.4 ≠ 0.2 ∧
        0.3 + (0.5 + t * 0.3) * 0.4 ≠ 0.02 ∧
        0 < 0.3 + (0.5 + t * 0.3) * 0.4) := by
  constructor
  · simp only [animateConns]
    rw [List.forall₂_map_right_iff, List.forall₂_same]
    intro c hc
    by_cases hop : c.opacity < 1.0
    · exact ⟨fun _ => by rw [if_pos hop], fun h => absurd hop h⟩
    · exact ⟨fun h => absurd h hop, fun _ => by rw [if_neg hop]⟩
  · intro t ht1 ht2
    refine ⟨by nlinarith, by nlinarith, by nlinarith⟩

/-- Witness for the amended C10 at `sin = 0` on a hover-dimmed line. -/
theorem c10_breathing_amended_witness :
    (0.3 + (0.5 + (0:ℚ) * 0.3) * 0.4 ≠ 0.2) ∧
    (0 : ℚ) ≤ 1 :=
  ⟨((c10_breathing_amended 0 ((triggerNeuralActivity "X".toList scnCConns).1)).2 0
      (by norm_num) (by norm_num)).1,
   by norm_num⟩

/-- Witness for C1 at the Scenario-A dataset. -/
theorem c1_graph_builder_witness :
    ((scnAWords.map (fun w => w.word)).Nodup) ∧
    createSemanticConnections similarityThreshold scnAWords =
      [{ userData := [("source", ['A']), ("target", ['B'])],
         colorMult := 15, opacity := 0.8, linewidth := 1 }] ∧
    (createSemanticConnections similarityThreshold scnAWords).length ≤ 2 * scnAWords.length :=
  ⟨by decide,
   (c1_graph_builder similarityThreshold scnAWords (by decide)).2.2.2.2,
   (c1_graph_builder similarityThreshold scnAWords (by decide)).2.2.2.1⟩

end Vis
